import Mathlib

/-!
Shallow embedding of the layout computation of `src/chart_script.py`.

The script builds a layered architecture diagram: it reverses the input
layer list, assigns each reversed layer a row origin `y_pos`, centers each
layer's components horizontally around `x = 0`, draws separator lines,
layer labels, component labels, hover markers and three flow arrows per
layer boundary.  All coordinates are modelled exactly over `ℚ` (the Python
floats `1.2`, `0.8`, `2.2`, `0.3`, `0.1` are taken at their decimal
values).
-/

namespace ChartScript

/-- A component, as in the `components` entries of the data dict:
`name`, `description`, `color`. -/
structure Component where
  name : String
  description : String
  color : String
deriving DecidableEq, Repr

/-- A layer: `name` plus its ordered component list. -/
structure Layer where
  name : String
  components : List Component
deriving DecidableEq, Repr

/-- A diagram: the ordered layer list (`data["architecture"]["layers"]`). -/
structure Diagram where
  layers : List Layer
deriving DecidableEq, Repr

/-- `layer_height = 1.2` (line 69). -/
def layer_height : ℚ := 1.2

/-- `component_width = 2.2` (line 70). -/
def component_width : ℚ := 2.2

/-- `component_height = 0.8` (line 71). -/
def component_height : ℚ := 0.8

/-- `layer_gap = 0.8` (line 72). -/
def layer_gap : ℚ := 0.8

/-- The horizontal gap between components; the script uses the literal
`0.3` at lines 98 and 102. -/
def component_gap : ℚ := 0.3

/-- Row origin of the layer at reversed index `layer_idx` (line 93):
`y_pos = (total_layers - layer_idx - 1) * (layer_height + layer_gap)`. -/
def y_pos (total_layers layer_idx : ℕ) : ℚ :=
  ((total_layers : ℚ) - (layer_idx : ℚ) - 1) * (layer_height + layer_gap)

/-- `total_width = num_components * component_width + (num_components - 1) * 0.3`
(line 98; Python evaluates `num_components - 1` in ℤ, so `n = 0` gives `-1`). -/
def total_width (num_components : ℕ) : ℚ :=
  (num_components : ℚ) * component_width + ((num_components : ℚ) - 1) * component_gap

/-- `start_x = -total_width / 2` (line 99). -/
def start_x (num_components : ℕ) : ℚ :=
  -(total_width num_components) / 2

/-- `x_pos = start_x + comp_idx * (component_width + 0.3)` (line 102). -/
def x_pos (num_components comp_idx : ℕ) : ℚ :=
  start_x num_components + (comp_idx : ℚ) * (component_width + component_gap)

/-- A rectangle shape as added by `fig.add_shape(type="rect", ...)`
(lines 105-113). -/
structure Rect where
  x0 : ℚ
  y0 : ℚ
  x1 : ℚ
  y1 : ℚ
  fillcolor : String
deriving DecidableEq, Repr

/-- One entry of `hover_data` (lines 116-122); the `layer` field is
`layer['name'].replace(' Layer', '')`. -/
structure HoverEntry where
  x : ℚ
  y : ℚ
  name : String
  description : String
  layer : String
deriving DecidableEq, Repr

/-- A separator line shape (lines 81-88). -/
structure SepLine where
  x0 : ℚ
  x1 : ℚ
  y0 : ℚ
  y1 : ℚ
deriving DecidableEq, Repr

/-- A text anchor: `x`, `y` and the annotation text. -/
structure LabelAnchor where
  x : ℚ
  y : ℚ
  text : String
deriving DecidableEq, Repr

/-- One flow arrow (lines 168-179): head at `(x, y)`, tail at `(ax, ay)`;
plotly draws the arrow from `(ax, ay)` to `(x, y)` with the head at `(x, y)`. -/
structure Arrow where
  x : ℚ
  y : ℚ
  ax : ℚ
  ay : ℚ
deriving DecidableEq, Repr

/-- Does `pat` occur at the very start of `s`? -/
def matchesAt : List Char → List Char → Bool
  | [], _ => true
  | _ :: _, [] => false
  | p :: ps, c :: cs => p == c && matchesAt ps cs

/-- Left-to-right non-overlapping replace-all on character lists, the
semantics of Python `str.replace(pat, repl)` for a non-empty `pat`.  The
fuel argument makes the recursion structural; `fuel = s.length` is always
enough because every step consumes at least one character of `s`. -/
def replFuel (pat repl : List Char) : ℕ → List Char → List Char
  | _, [] => []
  | 0, s => s
  | fuel + 1, c :: rest =>
    if pat ≠ [] && matchesAt pat (c :: rest) then
      repl ++ replFuel pat repl fuel ((c :: rest).drop pat.length)
    else
      c :: replFuel pat repl fuel rest

/-- Python `s.replace(pat, repl)` (replace all occurrences, left to right,
non-overlapping, the replacement text is not rescanned). -/
def pyReplace (pat repl s : String) : String :=
  String.mk (replFuel pat.data repl.data s.data.length s.data)

/-- The stripped layer display name, `layer['name'].replace(' Layer', '')`
(lines 121 and 154). -/
def strippedName (L : Layer) : String :=
  pyReplace " Layer" "" L.name

/-- The rectangles of one layer's row (the inner loop, lines 101-113). -/
def layerRects (total_layers layer_idx : ℕ) (L : Layer) : List Rect :=
  let y := y_pos total_layers layer_idx
  let n := L.components.length
  L.components.enum.map fun kc =>
    { x0 := x_pos n kc.1
      y0 := y
      x1 := x_pos n kc.1 + component_width
      y1 := y + component_height
      fillcolor := kc.2.color }

/-- The hover entries of one layer's row (lines 116-122). -/
def layerHoverEntries (total_layers layer_idx : ℕ) (L : Layer) : List HoverEntry :=
  let y := y_pos total_layers layer_idx
  let n := L.components.length
  L.components.enum.map fun kc =>
    { x := x_pos n kc.1 + component_width / 2
      y := y + component_height / 2
      name := kc.2.name
      description := kc.2.description
      layer := strippedName L }

/-- The separator lines (lines 79-88): for `layer_idx` in
`range(1, total_layers)`, a dotted line from `x = -8` to `x = 8` at
`y_line = (total_layers - layer_idx) * (layer_height + layer_gap) - layer_gap/2`. -/
def sepLines (total_layers : ℕ) : List SepLine :=
  (List.range (total_layers - 1)).map fun j : ℕ =>
    let y_line : ℚ :=
      ((total_layers : ℚ) - ((j : ℚ) + 1)) * (layer_height + layer_gap) - layer_gap / 2
    { x0 := -8, x1 := 8, y0 := y_line, y1 := y_line }

/-- `y_start` of the arrows at boundary `layer_idx` (line 163). -/
def arrow_y_start (total_layers layer_idx : ℕ) : ℚ :=
  y_pos total_layers layer_idx - 0.1

/-- `y_end` of the arrows at boundary `layer_idx` (line 164):
`(total_layers - layer_idx - 2) * (layer_height + layer_gap) + component_height + 0.1`. -/
def arrow_y_end (total_layers layer_idx : ℕ) : ℚ :=
  ((total_layers : ℚ) - (layer_idx : ℚ) - 2) * (layer_height + layer_gap)
    + component_height + 0.1

/-- The three arrows at one layer boundary (lines 166-179): for
`x_offset` in `[-2, 0, 2]`, head at `(x_offset, (y_start + y_end)/2)` and
tail at `(x_offset, y_start)`. -/
def arrowsAt (total_layers layer_idx : ℕ) : List Arrow :=
  let ys := arrow_y_start total_layers layer_idx
  let ye := arrow_y_end total_layers layer_idx
  [(-2 : ℚ), 0, 2].map fun x_offset =>
    { x := x_offset, y := (ys + ye) / 2, ax := x_offset, ay := ys }

/-- All arrow groups (the outer loop at line 162, `range(total_layers - 1)`). -/
def arrowGroups (total_layers : ℕ) : List (List Arrow) :=
  (List.range (total_layers - 1)).map fun layer_idx =>
    arrowsAt total_layers layer_idx

/-- The per-iteration row origins of the component loop (line 92-93): the
reversed layer list paired with each layer's `y_pos`. -/
def rowAssignment (d : Diagram) : List (Layer × ℚ) :=
  let layers := d.layers.reverse
  layers.enum.map fun il => (il.2, y_pos layers.length il.1)

/-- All derived geometry the script hands to plotly, collected in the
order the script emits it. -/
structure LayoutResult where
  seps : List SepLine
  rects : List Rect
  hover : List HoverEntry
  compLabels : List LabelAnchor
  layerLabels : List LabelAnchor
  arrows : List (List Arrow)
deriving DecidableEq, Repr

/-- The whole layout computation of `chart_script.py` (lines 74-179):
reverse the layers, emit separator lines, rectangles, hover data,
component name labels (lines 138-146), layer labels (lines 149-159) and
flow arrows. -/
def layout (d : Diagram) : LayoutResult :=
  let layers := d.layers.reverse
  let total_layers := layers.length
  let hover := layers.enum.flatMap fun il => layerHoverEntries total_layers il.1 il.2
  { seps := sepLines total_layers
    rects := layers.enum.flatMap fun il => layerRects total_layers il.1 il.2
    hover := hover
    compLabels := hover.map fun h =>
      { x := h.x, y := h.y, text := "<b>" ++ h.name ++ "</b>" }
    layerLabels := layers.enum.map fun il =>
      { x := -9
        y := y_pos total_layers il.1 + component_height / 2
        text := "<b>" ++ strippedName il.2 ++ "</b>" }
    arrows := arrowGroups total_layers }

/-- Checked rational division: `none` exactly when the divisor is zero.
Used to show the script's layout never divides by zero. -/
def qdiv? (a b : ℚ) : Option ℚ :=
  if b = 0 then none else some (a / b)

/-- Option-valued map over a list, failing when any element fails. -/
def mapOpt (f : α → Option β) : List α → Option (List β)
  | [] => some []
  | a :: l => do
    let b ← f a
    let bs ← mapOpt f l
    pure (b :: bs)

/-- The separator-line loop with every division routed through `qdiv?`
(the only division at lines 79-88 is `layer_gap/2`). -/
def sepLinesChecked (total_layers : ℕ) : Option (List SepLine) :=
  mapOpt
    (fun j : ℕ => do
      let half ← qdiv? layer_gap 2
      let y_line : ℚ :=
        ((total_layers : ℚ) - ((j : ℚ) + 1)) * (layer_height + layer_gap) - half
      pure { x0 := -8, x1 := 8, y0 := y_line, y1 := y_line })
    (List.range (total_layers - 1))

/-- One layer's row (lines 97-122) with every division routed through
`qdiv?`: `start_x = -total_width / 2`, and per hover entry
`component_width/2` and `component_height/2`. -/
def layerRowChecked (total_layers layer_idx : ℕ) (L : Layer) :
    Option (List Rect × List HoverEntry) := do
  let y := y_pos total_layers layer_idx
  let n := L.components.length
  let sx ← qdiv? (-(total_width n)) 2
  let rects := L.components.enum.map fun kc =>
    ({ x0 := sx + (kc.1 : ℚ) * (component_width + component_gap)
       y0 := y
       x1 := sx + (kc.1 : ℚ) * (component_width + component_gap) + component_width
       y1 := y + component_height
       fillcolor := kc.2.color } : Rect)
  let hover ← mapOpt
    (fun kc => do
      let halfW ← qdiv? component_width 2
      let halfH ← qdiv? component_height 2
      pure ({ x := sx + (kc.1 : ℚ) * (component_width + component_gap) + halfW
              y := y + halfH
              name := kc.2.name
              description := kc.2.description
              layer := strippedName L } : HoverEntry))
    L.components.enum
  pure (rects, hover)

/-- The flow-arrow loops (lines 162-179) with the division
`(y_start + y_end) / 2` routed through `qdiv?`. -/
def arrowGroupsChecked (total_layers : ℕ) : Option (List (List Arrow)) :=
  mapOpt
    (fun layer_idx =>
      mapOpt
        (fun x_offset => do
          let m ← qdiv?
            (arrow_y_start total_layers layer_idx + arrow_y_end total_layers layer_idx) 2
          pure ({ x := x_offset, y := m, ax := x_offset
                  ay := arrow_y_start total_layers layer_idx } : Arrow))
        [(-2 : ℚ), 0, 2])
    (List.range (total_layers - 1))

/-- The whole layout computation with every division site routed through
`qdiv?` (the layer-label loop divides `component_height/2` at line 153). -/
def layoutChecked (d : Diagram) : Option LayoutResult := do
  let layers := d.layers.reverse
  let total_layers := layers.length
  let seps ← sepLinesChecked total_layers
  let rows ← mapOpt (fun il => layerRowChecked total_layers il.1 il.2) layers.enum
  let hover := (rows.map Prod.snd).flatten
  let labels ← mapOpt
    (fun il => do
      let halfH ← qdiv? component_height 2
      pure ({ x := -9
              y := y_pos total_layers il.1 + halfH
              text := "<b>" ++ strippedName il.2 ++ "</b>" } : LabelAnchor))
    layers.enum
  let arrows ← arrowGroupsChecked total_layers
  pure
    { seps := seps
      rects := (rows.map Prod.fst).flatten
      hover := hover
      compLabels := hover.map fun h =>
        { x := h.x, y := h.y, text := "<b>" ++ h.name ++ "</b>" }
      layerLabels := labels
      arrows := arrows }

/-- Does `pat` occur anywhere in `s`? -/
def containsSub (pat : List Char) : List Char → Bool
  | [] => matchesAt pat []
  | c :: rest => matchesAt pat (c :: rest) || containsSub pat rest

/-- The `hovertemplate` string of the scatter trace (line 131). -/
def hovertemplate : String :=
  "<b>%\x7bcustomdata[0]\x7d</b><br>%\x7bcustomdata[1]\x7d<br><i>%\x7bcustomdata[2]\x7d Layer</i><extra></extra>"

/-- Modelled from the spec: the rendering collaborator (plotly, out of
scope of `src/`) instantiates `hovertemplate` by substituting
`customdata[0..2]` = (name, description, layer) into the placeholders. -/
def instantiateTemplate (nm ds ly : String) : String :=
  pyReplace "%\x7bcustomdata[2]\x7d" ly
    (pyReplace "%\x7bcustomdata[1]\x7d" ds
      (pyReplace "%\x7bcustomdata[0]\x7d" nm hovertemplate))

/-- `Comp1` of the worked example in the spec (§8): Layer A = [Comp1, Comp2],
Layer B = [Comp3]. -/
def compA1 : Component := ⟨"Comp1", "first component", "#111111"⟩

/-- `Comp2` of the worked example. -/
def compA2 : Component := ⟨"Comp2", "second component", "#222222"⟩

/-- `Comp3` of the worked example. -/
def compB1 : Component := ⟨"Comp3", "third component", "#333333"⟩

/-- Layer A of the worked example (declared first in the input list). -/
def layerA : Layer := ⟨"A Layer", [compA1, compA2]⟩

/-- Layer B of the worked example (declared last in the input list). -/
def layerB : Layer := ⟨"B Layer", [compB1]⟩

/-- The two-layer example diagram: input order `[A, B]`. -/
def dAB : Diagram := ⟨[layerA, layerB]⟩

/-- An empty diagram (no layers): the first malformed input class. -/
def dEmpty : Diagram := ⟨[]⟩

/-- A diagram whose only layer has zero components: the second malformed
input class. -/
def dZeroComp : Diagram := ⟨[⟨"Z Layer", []⟩]⟩

/-- The diagram hard-coded in `chart_script.py` (lines 6-63). -/
def daorsData : Diagram :=
  ⟨[⟨"Frontend Layer",
      [⟨"React PWA", "Web app offline support", "#61DAFB"⟩,
       ⟨"React Native", "Cross-platform mobile", "#61DAFB"⟩,
       ⟨"Shared Comp", "Common UI components", "#4FC3F7"⟩]⟩,
    ⟨"API Gateway Layer",
      [⟨"Kong/Nginx", "API routing & auth", "#FF6B35"⟩,
       ⟨"Load Balancer", "Traffic distribution", "#FF8A65"⟩]⟩,
    ⟨"Microservices Layer",
      [⟨"Auth Service", "Authentication", "#4CAF50"⟩,
       ⟨"Financial Svc", "Transaction mgmt", "#4CAF50"⟩,
       ⟨"Subsidy Svc", "Gov program mgmt", "#4CAF50"⟩,
       ⟨"Insurance Svc", "Policy & claims", "#4CAF50"⟩,
       ⟨"Analytics Svc", "ML & BI", "#4CAF50"⟩,
       ⟨"Document Svc", "File & OCR", "#4CAF50"⟩,
       ⟨"Notify Svc", "Multi-channel msg", "#4CAF50"⟩]⟩,
    ⟨"Message Queue Layer",
      [⟨"Apache Kafka", "Event streaming", "#9C27B0"⟩,
       ⟨"Redis", "Cache & session", "#E91E63"⟩]⟩,
    ⟨"Database Layer",
      [⟨"PostgreSQL", "Relational data", "#336791"⟩,
       ⟨"MongoDB", "Document storage", "#47A248"⟩,
       ⟨"ClickHouse", "Analytics data", "#FFEB3B"⟩,
       ⟨"Elasticsearch", "Search & logging", "#F4B942"⟩]⟩,
    ⟨"External Integration Layer",
      [⟨"IoT Platforms", "ThingsBoard AWS", "#607D8B"⟩,
       ⟨"Weather APIs", "Real-time weather", "#03A9F4"⟩,
       ⟨"Gov APIs", "Subsidy systems", "#795548"⟩,
       ⟨"Insurance APIs", "Provider integrat", "#FF5722"⟩]⟩]⟩

/-- Division by the literal `2` never fails. -/
lemma qdiv?_two (a : ℚ) : qdiv? a 2 = some (a / 2) := by
  simp [qdiv?]

/-- `mapOpt` over a function that never fails is an ordinary `map`. -/
lemma mapOpt_some (f : α → β) : ∀ l : List α,
    mapOpt (fun a => some (f a)) l = some (l.map f)
  | [] => rfl
  | a :: l => by simp [mapOpt, mapOpt_some f l]

/-- `flatten` after `map` is `flatMap`. -/
lemma flatten_map (f : α → List β) (l : List α) :
    (l.map f).flatten = l.flatMap f := rfl

/-- The checked separator loop never fails and agrees with `sepLines`. -/
lemma sepLinesChecked_eq (n : ℕ) : sepLinesChecked n = some (sepLines n) := by
  unfold sepLinesChecked sepLines
  simp only [qdiv?_two, Option.bind_eq_bind, Option.some_bind]
  exact mapOpt_some _ _

/-- The checked row computation never fails and agrees with
`layerRects` and `layerHoverEntries`. -/
lemma layerRowChecked_eq (total_layers layer_idx : ℕ) (L : Layer) :
    layerRowChecked total_layers layer_idx L =
      some (layerRects total_layers layer_idx L,
            layerHoverEntries total_layers layer_idx L) := by
  unfold layerRowChecked layerRects layerHoverEntries
  simp only [qdiv?_two, Option.bind_eq_bind, Option.some_bind]
  simp [mapOpt_some, start_x, x_pos]

/-- The checked arrow loops never fail and agree with `arrowGroups`. -/
lemma arrowGroupsChecked_eq (n : ℕ) : arrowGroupsChecked n = some (arrowGroups n) := by
  unfold arrowGroupsChecked arrowGroups arrowsAt
  simp only [qdiv?_two, Option.bind_eq_bind, Option.some_bind, mapOpt_some]
  exact mapOpt_some _ _

/-- The fully checked layout never fails: it returns exactly `layout d`,
for every diagram. -/
lemma layoutChecked_eq (d : Diagram) : layoutChecked d = some (layout d) := by
  unfold layoutChecked layout
  simp only [sepLinesChecked_eq, layerRowChecked_eq, arrowGroupsChecked_eq,
    qdiv?_two, Option.bind_eq_bind, Option.some_bind]
  simp [mapOpt_some, List.map_map, flatten_map, List.flatMap_map, Function.comp]

end ChartScript


namespace ChartScript

/-- C1 counterexample: in the two-layer example diagram `dAB` (input order
[A, B]) the loop assigns row origin 2 to layer B (the last input layer)
and 0 to layer A (the first input layer), so the first input layer's row
origin is NOT strictly greater than the last input layer's. -/
theorem C1_counterexample :
    rowAssignment dAB = [(layerB, 2), (layerA, 0)] ∧
    dAB.layers.head? = some layerA ∧
    dAB.layers.getLast? = some layerB ∧
    ¬ ((0 : ℚ) > 2) := by
  refine ⟨?_, rfl, rfl, by norm_num⟩
  simp [rowAssignment, dAB, layerA, layerB, y_pos, List.enum]
  norm_num [layer_height, layer_gap]

/-- C1 (amended): layers are processed in reverse of their input order,
but the first input layer is drawn at the visual BOTTOM: for every
diagram with at least two layers, the loop's last iteration handles the
first input layer at row origin 0, its first iteration handles the last
input layer at row origin (n-1)*(layer_height+layer_gap), and the former
is strictly less than the latter. -/
theorem C1_first_input_layer_at_bottom (d : Diagram) (h : 2 ≤ d.layers.length) :
    ∃ pFirst pLast : Layer × ℚ,
      (rowAssignment d).getLast? = some pFirst ∧
      (rowAssignment d).head? = some pLast ∧
      d.layers.head? = some pFirst.1 ∧
      d.layers.getLast? = some pLast.1 ∧
      pFirst.2 = 0 ∧
      pLast.2 = ((d.layers.length : ℚ) - 1) * (layer_height + layer_gap) ∧
      pFirst.2 < pLast.2 := by
  have hne : d.layers ≠ [] := by
    intro hnil
    rw [hnil] at h
    simp at h
  obtain ⟨Lfirst, hLf⟩ := Option.isSome_iff_exists.mp (List.head?_isSome.mpr hne)
  obtain ⟨Llast, hLl⟩ := Option.isSome_iff_exists.mp (List.getLast?_isSome.mpr hne)
  have hcast : ((d.layers.length - 1 : ℕ) : ℚ) = (d.layers.length : ℚ) - 1 := by
    have h1 : 1 ≤ d.layers.length := le_trans (by norm_num) h
    push_cast [h1]
    ring
  refine ⟨(Lfirst, 0), (Llast, ((d.layers.length : ℚ) - 1) * (layer_height + layer_gap)),
    ?_, ?_, by simpa using hLf, by simpa using hLl, rfl, rfl, ?_⟩
  · simp only [rowAssignment, List.getLast?_map, List.getLast?_enum, List.getLast?_reverse,
      List.length_reverse, hLf, Option.map_some', y_pos]
    have hz : ((d.layers.length : ℚ) - ((d.layers.length - 1 : ℕ) : ℚ) - 1)
        * (layer_height + layer_gap) = 0 := by
      rw [hcast]; ring
    rw [hz]
  · simp only [rowAssignment, List.head?_map, List.head?_enum, List.head?_reverse,
      List.length_reverse, hLl, Option.map_some']
    simp only [y_pos]
    norm_num
  · have h2 : (2 : ℚ) ≤ (d.layers.length : ℚ) := by exact_mod_cast h
    simp only [layer_height, layer_gap]
    nlinarith

/-- C1 witness: the amended theorem applied to the concrete two-layer
diagram `dAB`. -/
theorem C1_witness :
    2 ≤ dAB.layers.length ∧
    (∃ pFirst pLast : Layer × ℚ,
      (rowAssignment dAB).getLast? = some pFirst ∧
      (rowAssignment dAB).head? = some pLast ∧
      dAB.layers.head? = some pFirst.1 ∧
      dAB.layers.getLast? = some pLast.1 ∧
      pFirst.2 = 0 ∧
      pLast.2 = ((dAB.layers.length : ℚ) - 1) * (layer_height + layer_gap) ∧
      pFirst.2 < pLast.2) :=
  ⟨by norm_num [dAB], C1_first_input_layer_at_bottom dAB (by norm_num [dAB])⟩

end ChartScript

namespace ChartScript

/-- C2 counterexample: in `dAB` the single arrow group's arrows run from
tail y = 1.9 (= y_start) to head y = 1.4, the midpoint of
[y_end, y_start]; no endpoint equals y_end = 0.9, so the arrows do not
span down to y_end as the claim states. -/
theorem C2_counterexample :
    (layout dAB).arrows =
      [[⟨-2, 1.4, -2, 1.9⟩, ⟨0, 1.4, 0, 1.9⟩, ⟨2, 1.4, 2, 1.9⟩]] ∧
    arrow_y_end 2 0 = 0.9 ∧
    ((1.4 : ℚ) ≠ 0.9) := by
  refine ⟨?_, ?_, by norm_num⟩
  · simp [layout, dAB, layerA, layerB, arrowGroups, arrowsAt, arrow_y_start, arrow_y_end,
      y_pos, List.range_succ]
    norm_num [layer_height, layer_gap, component_height]
  · norm_num [arrow_y_end, layer_height, layer_gap, component_height]

/-- C2 (amended): for each of the total_layers - 1 layer boundaries,
exactly three arrows are emitted at horizontal offsets -2, 0, +2; each
has its tail at y_start = y(i) - 0.1 and its head at the midpoint
(y_start + y_end)/2, where y_end = y(i+1) + component_height + 0.1; the
head lies strictly below the tail, i.e. the arrow points downward toward
the lower layer. -/
theorem C2_arrows_to_midpoint (d : Diagram) :
    (layout d).arrows.length = d.layers.length - 1 ∧
    ∀ i : ℕ, i < d.layers.length - 1 →
      (layout d).arrows[i]? = some
        ([(-2 : ℚ), 0, 2].map fun x_offset =>
          { x := x_offset
            y := (arrow_y_start d.layers.length i + arrow_y_end d.layers.length i) / 2
            ax := x_offset
            ay := arrow_y_start d.layers.length i }) ∧
      (arrow_y_start d.layers.length i + arrow_y_end d.layers.length i) / 2
        < arrow_y_start d.layers.length i ∧
      arrow_y_end d.layers.length i
        = y_pos d.layers.length (i + 1) + component_height + 0.1 := by
  constructor
  · simp [layout, arrowGroups]
  · intro i hi
    refine ⟨?_, ?_, ?_⟩
    · simp only [layout, arrowGroups, arrowsAt, List.getElem?_map, List.length_reverse]
      rw [List.getElem?_range (by simpa using hi)]
      rfl
    · have hgt : arrow_y_end d.layers.length i < arrow_y_start d.layers.length i := by
        simp only [arrow_y_start, arrow_y_end, y_pos, layer_height, layer_gap, component_height]
        norm_num
        linarith
      linarith
    · simp only [arrow_y_end, y_pos]
      push_cast
      ring

/-- C2 witness: the amended theorem applied to `dAB` at boundary 0. -/
theorem C2_witness :
    (0 < dAB.layers.length - 1) ∧
    ((layout dAB).arrows[0]? = some
        ([(-2 : ℚ), 0, 2].map fun x_offset =>
          { x := x_offset
            y := (arrow_y_start dAB.layers.length 0 + arrow_y_end dAB.layers.length 0) / 2
            ax := x_offset
            ay := arrow_y_start dAB.layers.length 0 }) ∧
      (arrow_y_start dAB.layers.length 0 + arrow_y_end dAB.layers.length 0) / 2
        < arrow_y_start dAB.layers.length 0 ∧
      arrow_y_end dAB.layers.length 0
        = y_pos dAB.layers.length (0 + 1) + component_height + 0.1) :=
  ⟨by norm_num [dAB], (C2_arrows_to_midpoint dAB).2 0 (by norm_num [dAB])⟩

end ChartScript

namespace ChartScript

/-- C3 counterexample: on both malformed inputs (a diagram whose only
layer has zero components, and an empty diagram) the division-checked
layout succeeds — no division by zero is performed — and the geometry is
degenerate: empty rows, empty layout; a zero-component layer merely gets
total_width = -0.3 and start_x = 0.15. -/
theorem C3_counterexample :
    layoutChecked dZeroComp = some (layout dZeroComp) ∧
    (layout dZeroComp).rects = [] ∧
    (layout dZeroComp).hover = [] ∧
    (layout dZeroComp).seps = [] ∧
    total_width 0 = -0.3 ∧
    start_x 0 = 0.15 ∧
    layoutChecked dEmpty = some (layout dEmpty) ∧
    layout dEmpty = ⟨[], [], [], [], [], []⟩ := by
  refine ⟨layoutChecked_eq _, ?_, ?_, ?_,
    by norm_num [total_width, component_width, component_gap],
    by norm_num [start_x, total_width, component_width, component_gap],
    layoutChecked_eq _, ?_⟩
  all_goals
    simp [layout, dZeroComp, dEmpty, sepLines, arrowGroups, layerRects, layerHoverEntries,
      List.enum]

/-- C3 (amended): malformed diagrams (empty layer list, zero-component
layer) produce degenerate/empty geometry with no special-casing and no
runtime-checked error, but no division by zero ever occurs: every
division in the computation is by the constant 2, so the fully
division-checked layout succeeds on every input. -/
theorem C3_no_division_by_zero (d : Diagram) :
    layoutChecked d = some (layout d) ∧
    (d.layers = [] →
      layout d = ⟨[], [], [], [], [], []⟩) ∧
    (∀ L ∈ d.layers, L.components = [] →
      ∀ total_layers layer_idx : ℕ,
        layerRects total_layers layer_idx L = [] ∧
        layerHoverEntries total_layers layer_idx L = []) := by
  refine ⟨layoutChecked_eq d, ?_, ?_⟩
  · intro h
    simp [layout, h, sepLines, arrowGroups]
  · intro L _ hL n i
    simp [layerRects, layerHoverEntries, hL]

/-- C3 witness: the amended theorem applied to the empty diagram and to
the zero-component-layer diagram. -/
theorem C3_witness :
    layout dEmpty = ⟨[], [], [], [], [], []⟩ ∧
    layoutChecked dZeroComp = some (layout dZeroComp) :=
  ⟨(C3_no_division_by_zero dEmpty).2.1 rfl, (C3_no_division_by_zero dZeroComp).1⟩

/-- Sum of an affine sequence over `List.range`. -/
lemma list_range_sum_affine (a b : ℚ) (n : ℕ) :
    (((List.range n).map fun k : ℕ => a + (k : ℚ) * b).sum) =
      (n : ℚ) * a + ((n : ℚ) * ((n : ℚ) - 1) / 2) * b := by
  induction n with
  | zero => simp
  | succ m ih =>
      rw [List.range_succ, List.map_append, List.sum_append]
      simp [ih]
      ring_nf

/-- C4: for every layer with n >= 1 components,
total_width = n*component_width + (n-1)*component_gap and
start_x = -total_width/2, the mean of the layer's component center-x
values is 0, and a single component with component_width = 2.2 occupies
exactly [-1.1, 1.1]. -/
theorem C4_centering (n : ℕ) (h : 1 ≤ n) :
    total_width n = (n : ℚ) * component_width + ((n : ℚ) - 1) * component_gap ∧
    start_x n = -(total_width n) / 2 ∧
    (((List.range n).map fun k => x_pos n k + component_width / 2).sum) / (n : ℚ) = 0 ∧
    x_pos 1 0 = -1.1 ∧
    x_pos 1 0 + component_width = 1.1 := by
  refine ⟨rfl, rfl, ?_,
    by norm_num [x_pos, start_x, total_width, component_width, component_gap],
    by norm_num [x_pos, start_x, total_width, component_width, component_gap]⟩
  have hs : (fun k : ℕ => x_pos n k + component_width / 2) =
      fun k : ℕ => (start_x n + component_width / 2)
        + (k : ℚ) * (component_width + component_gap) := by
    funext k
    simp only [x_pos]
    ring
  rw [hs, list_range_sum_affine]
  rw [div_eq_zero_iff]
  left
  simp only [start_x, total_width, component_width, component_gap]
  ring

/-- C4 witness: the centering theorem applied at n = 2. -/
theorem C4_witness :
    1 ≤ 2 ∧
    (total_width 2 = (2 : ℚ) * component_width + ((2 : ℚ) - 1) * component_gap ∧
     start_x 2 = -(total_width 2) / 2 ∧
     (((List.range 2).map fun k => x_pos 2 k + component_width / 2).sum) / (2 : ℚ) = 0 ∧
     x_pos 1 0 = -1.1 ∧
     x_pos 1 0 + component_width = 1.1) :=
  ⟨by norm_num, by exact_mod_cast C4_centering 2 (by norm_num)⟩

/-- C5: within any layer the placed boxes never intersect: for every
adjacent pair of rectangles, x1(k) <= x0(k+1); the gap between them is
exactly component_gap = 0.3 > 0. -/
theorem C5_no_overlap (total_layers layer_idx : ℕ) (L : Layer) (k : ℕ) (r r' : Rect)
    (hk : (layerRects total_layers layer_idx L)[k]? = some r)
    (hk1 : (layerRects total_layers layer_idx L)[k + 1]? = some r') :
    r.x1 ≤ r'.x0 ∧ r'.x0 - r.x1 = component_gap ∧ 0 < component_gap := by
  unfold layerRects at hk hk1
  simp only [List.getElem?_map, List.getElem?_enum, Option.map_map, Option.map_eq_some']
    at hk hk1
  obtain ⟨c, hc, rfl⟩ := hk
  obtain ⟨c', hc', rfl⟩ := hk1
  have hgap : ((Rect.mk (x_pos L.components.length (k + 1)) (y_pos total_layers layer_idx)
      (x_pos L.components.length (k + 1) + component_width)
      (y_pos total_layers layer_idx + component_height) c'.color).x0)
      - ((Rect.mk (x_pos L.components.length k) (y_pos total_layers layer_idx)
      (x_pos L.components.length k + component_width)
      (y_pos total_layers layer_idx + component_height) c.color).x1) = component_gap := by
    simp only [x_pos]
    push_cast
    ring
  refine ⟨?_, hgap, by norm_num [component_gap]⟩
  have : (0 : ℚ) < component_gap := by norm_num [component_gap]
  dsimp at hgap ⊢
  linarith

end ChartScript

namespace ChartScript

/-- C5 witness: the no-overlap theorem applied to the two concrete
adjacent rectangles of layer A in the example diagram. -/
theorem C5_witness :
    (layerRects 2 1 layerA)[0]? = some ⟨-2.35, 0, -0.15, 0.8, "#111111"⟩ ∧
    (layerRects 2 1 layerA)[1]? = some ⟨0.15, 0, 2.35, 0.8, "#222222"⟩ ∧
    ((-0.15 : ℚ) ≤ 0.15 ∧ (0.15 : ℚ) - (-0.15) = component_gap ∧ 0 < component_gap) := by
  have h0 : (layerRects 2 1 layerA)[0]? = some ⟨-2.35, 0, -0.15, 0.8, "#111111"⟩ := by
    simp [layerRects, layerA, compA1, compA2, List.enum, x_pos, start_x, total_width, y_pos]
    norm_num [layer_height, layer_gap, component_width, component_height, component_gap]
  have h1 : (layerRects 2 1 layerA)[1]? = some ⟨0.15, 0, 2.35, 0.8, "#222222"⟩ := by
    simp [layerRects, layerA, compA1, compA2, List.enum, x_pos, start_x, total_width, y_pos]
    norm_num [layer_height, layer_gap, component_width, component_height, component_gap]
  exact ⟨h0, h1, C5_no_overlap 2 1 layerA 0 _ _ h0 h1⟩

/-- C6: a layer at reversed index i has row origin
y(i) = (total_layers - i - 1)*(layer_height + layer_gap), each of its
rectangles spans y0 = y(i) to y1 = y(i) + component_height, and the row
origins strictly decrease in i with constant spacing
layer_height + layer_gap. -/
theorem C6_vertical (total_layers layer_idx : ℕ) (L : Layer) :
    y_pos total_layers layer_idx =
      ((total_layers : ℚ) - (layer_idx : ℚ) - 1) * (layer_height + layer_gap) ∧
    (∀ r ∈ layerRects total_layers layer_idx L,
      r.y0 = y_pos total_layers layer_idx ∧
      r.y1 = y_pos total_layers layer_idx + component_height) ∧
    (∀ i j : ℕ, i < j → y_pos total_layers j < y_pos total_layers i) ∧
    (∀ i : ℕ, y_pos total_layers i - y_pos total_layers (i + 1)
      = layer_height + layer_gap) := by
  refine ⟨rfl, ?_, ?_, ?_⟩
  · intro r hr
    simp only [layerRects, List.mem_map] at hr
    obtain ⟨kc, _, rfl⟩ := hr
    exact ⟨rfl, rfl⟩
  · intro i j hij
    have hij' : (i : ℚ) < (j : ℚ) := by exact_mod_cast hij
    simp only [y_pos, layer_height, layer_gap]
    norm_num
    linarith
  · intro i
    simp only [y_pos]
    push_cast
    ring

/-- C6 witness: the vertical-stacking theorem applied at concrete
indices for a two-layer diagram. -/
theorem C6_witness :
    y_pos 2 0 = 2 ∧
    (0 < 1 ∧ y_pos 2 1 < y_pos 2 0) ∧
    y_pos 2 0 - y_pos 2 1 = layer_height + layer_gap := by
  refine ⟨?_, ⟨by norm_num, (C6_vertical 2 0 layerA).2.2.1 0 1 (by norm_num)⟩,
    (C6_vertical 2 0 layerA).2.2.2 0⟩
  norm_num [y_pos, layer_height, layer_gap]

end ChartScript

namespace ChartScript

/-- Hover entry count of one layer equals its component count. -/
lemma layerHoverEntries_length (total_layers layer_idx : ℕ) (L : Layer) :
    (layerHoverEntries total_layers layer_idx L).length = L.components.length := by
  simp [layerHoverEntries]

/-- C7: a diagram with n layers yields exactly n rows (row assignments
and layer labels), n-1 separator lines, n-1 arrow groups of exactly 3
arrows each, one hover entry per component, and one component label per
hover entry. -/
theorem C7_counts (d : Diagram) (hne : ∀ L ∈ d.layers, L.components ≠ []) :
    (rowAssignment d).length = d.layers.length ∧
    (layout d).layerLabels.length = d.layers.length ∧
    (layout d).seps.length = d.layers.length - 1 ∧
    (layout d).arrows.length = d.layers.length - 1 ∧
    (∀ g ∈ (layout d).arrows, g.length = 3) ∧
    (layout d).hover.length = (d.layers.map fun L => L.components.length).sum ∧
    (layout d).compLabels.length = (layout d).hover.length := by
  refine ⟨?_, ?_, ?_, ?_, ?_, ?_, ?_⟩
  · simp [rowAssignment]
  · simp [layout]
  · simp [layout, sepLines]
  · simp [layout, arrowGroups]
  · intro g hg
    simp only [layout, arrowGroups, List.mem_map] at hg
    obtain ⟨i, _, rfl⟩ := hg
    simp [arrowsAt]
  · simp only [layout, List.length_flatMap, List.map_map]
    calc (List.map (fun il : ℕ × Layer =>
            (layerHoverEntries d.layers.reverse.length il.1 il.2).length)
            d.layers.reverse.enum).sum
        = (List.map ((fun L : Layer => L.components.length) ∘ Prod.snd)
            d.layers.reverse.enum).sum := by
          have hfn : (fun il : ℕ × Layer =>
              (layerHoverEntries d.layers.reverse.length il.1 il.2).length)
              = ((fun L : Layer => L.components.length) ∘ Prod.snd) := by
            funext il
            simp [layerHoverEntries_length, Function.comp]
          rw [hfn]
      _ = (List.map (fun L : Layer => L.components.length)
            (List.map Prod.snd d.layers.reverse.enum)).sum := by
          rw [List.map_map]
      _ = (List.map (fun L : Layer => L.components.length) d.layers.reverse).sum := by
          rw [List.enum_map_snd]
      _ = (d.layers.map fun L => L.components.length).sum := by
          rw [List.map_reverse, List.sum_reverse]
  · simp [layout]

/-- C7 witness: the count theorem applied to the six-layer diagram
hard-coded in the script (6 rows, 5 separators, 5 arrow groups,
22 hover entries). -/
theorem C7_witness :
    (∀ L ∈ daorsData.layers, L.components ≠ []) ∧
    ((rowAssignment daorsData).length = daorsData.layers.length ∧
     (layout daorsData).layerLabels.length = daorsData.layers.length ∧
     (layout daorsData).seps.length = daorsData.layers.length - 1 ∧
     (layout daorsData).arrows.length = daorsData.layers.length - 1 ∧
     (∀ g ∈ (layout daorsData).arrows, g.length = 3) ∧
     (layout daorsData).hover.length
       = (daorsData.layers.map fun L => L.components.length).sum ∧
     (layout daorsData).compLabels.length = (layout daorsData).hover.length) :=
  ⟨by decide, C7_counts daorsData (by decide)⟩

end ChartScript

namespace ChartScript

/-- C8: every separator line is horizontal, spans exactly x in [-8, 8],
and the i-th (boundary_index = i+1 ranging over 1..total_layers-1) sits
at y = (total_layers - boundary_index)*(layer_height + layer_gap)
- layer_gap/2. -/
theorem C8_separator_lines (d : Diagram) :
    (layout d).seps.length = d.layers.length - 1 ∧
    ∀ (i : ℕ) (s : SepLine), (layout d).seps[i]? = some s →
      i + 1 ≤ d.layers.length - 1 ∧
      s.x0 = -8 ∧ s.x1 = 8 ∧ s.y1 = s.y0 ∧
      s.y0 = ((d.layers.length : ℚ) - ((i : ℚ) + 1)) * (layer_height + layer_gap)
        - layer_gap / 2 := by
  constructor
  · simp [layout, sepLines]
  · intro i s hs
    simp only [layout, sepLines, List.getElem?_map, List.length_reverse,
      Option.map_eq_some'] at hs
    obtain ⟨j, hj, rfl⟩ := hs
    obtain ⟨hlt, hval⟩ := List.getElem?_eq_some_iff.mp hj
    rw [List.getElem_range] at hval
    rw [List.length_range] at hlt
    subst hval
    refine ⟨by omega, rfl, rfl, rfl, rfl⟩

/-- C8 witness: the separator theorem applied to the concrete separator
of the two-layer diagram (at y = 1.6). -/
theorem C8_witness :
    (layout dAB).seps.length = dAB.layers.length - 1 ∧
    (layout dAB).seps[0]? = some ⟨-8, 8, 1.6, 1.6⟩ ∧
    (0 + 1 ≤ dAB.layers.length - 1 ∧
     (SepLine.mk (-8) 8 1.6 1.6).x0 = -8 ∧
     (SepLine.mk (-8) 8 1.6 1.6).x1 = 8 ∧
     (SepLine.mk (-8) 8 1.6 1.6).y1 = (SepLine.mk (-8) 8 1.6 1.6).y0 ∧
     (SepLine.mk (-8) 8 1.6 1.6).y0
       = ((dAB.layers.length : ℚ) - ((0 : ℕ) + 1)) * (layer_height + layer_gap)
         - layer_gap / 2) := by
  have hsep : (layout dAB).seps[0]? = some ⟨-8, 8, 1.6, 1.6⟩ := by
    simp [layout, dAB, sepLines, List.range_succ]
    norm_num [layer_height, layer_gap]
  exact ⟨(C8_separator_lines dAB).1, hsep, (C8_separator_lines dAB).2 0 _ hsep⟩

/-- C9: the layout computation is deterministic and side-effect free:
it is a total function of the Diagram value alone, so identical inputs
yield identical derived geometry (both for the plain and the
division-checked computation). -/
theorem C9_deterministic (d₁ d₂ : Diagram) (h : d₁ = d₂) :
    layout d₁ = layout d₂ ∧ layoutChecked d₁ = layoutChecked d₂ := by
  rw [h]
  exact ⟨rfl, rfl⟩

/-- C9 witness: determinism applied to the concrete diagram `dAB`. -/
theorem C9_witness :
    dAB = dAB ∧ (layout dAB = layout dAB ∧ layoutChecked dAB = layoutChecked dAB) :=
  ⟨rfl, C9_deterministic dAB dAB rfl⟩

/-- C10: every hover entry's layer field and every layer label use the
layer's name with all occurrences of ' Layer' removed (Python
`str.replace`), not the verbatim name; and the hover template contains
the layer placeholder immediately followed by the literal ' Layer',
re-appending the word after the stripped value. -/
theorem C10_layer_suffix_stripped (d : Diagram) (L : Layer) (c : Component)
    (hL : L ∈ d.layers) (hc : c ∈ L.components) :
    (∃ h ∈ (layout d).hover,
        h.name = c.name ∧ h.description = c.description ∧
        h.layer = pyReplace " Layer" "" L.name) ∧
    (∃ lab ∈ (layout d).layerLabels,
        lab.text = "<b>" ++ pyReplace " Layer" "" L.name ++ "</b>") ∧
    containsSub ("%\x7bcustomdata[2]\x7d Layer").data hovertemplate.data = true := by
  have hLrev : L ∈ d.layers.reverse := List.mem_reverse.mpr hL
  obtain ⟨idx, hidx⟩ := List.mem_iff_getElem?.mp hLrev
  have hLenum : (idx, L) ∈ d.layers.reverse.enum :=
    List.mk_mem_enum_iff_getElem?.mpr hidx
  obtain ⟨k, hk⟩ := List.mem_iff_getElem?.mp hc
  have hcenum : (k, c) ∈ L.components.enum :=
    List.mk_mem_enum_iff_getElem?.mpr hk
  refine ⟨?_, ?_, by decide⟩
  · refine ⟨{ x := x_pos L.components.length k + component_width / 2
              y := y_pos d.layers.reverse.length idx + component_height / 2
              name := c.name
              description := c.description
              layer := strippedName L }, ?_, rfl, rfl, rfl⟩
    simp only [layout, List.mem_flatMap]
    refine ⟨(idx, L), hLenum, ?_⟩
    simp only [layerHoverEntries, List.mem_map]
    exact ⟨(k, c), hcenum, rfl⟩
  · refine ⟨{ x := -9
              y := y_pos d.layers.reverse.length idx + component_height / 2
              text := "<b>" ++ strippedName L ++ "</b>" }, ?_, rfl⟩
    simp only [layout, List.mem_map]
    exact ⟨(idx, L), hLenum, rfl⟩

/-- C10 witness: the stripping theorem applied to layer A of `dAB`,
plus concrete evaluations: 'A Layer' strips to 'A' and the
instantiated tooltip re-appends ' Layer'. -/
theorem C10_witness :
    layerA ∈ dAB.layers ∧ compA1 ∈ layerA.components ∧
    ((∃ h ∈ (layout dAB).hover,
        h.name = compA1.name ∧ h.description = compA1.description ∧
        h.layer = pyReplace " Layer" "" layerA.name) ∧
     (∃ lab ∈ (layout dAB).layerLabels,
        lab.text = "<b>" ++ pyReplace " Layer" "" layerA.name ++ "</b>") ∧
     containsSub ("%\x7bcustomdata[2]\x7d Layer").data hovertemplate.data = true) ∧
    pyReplace " Layer" "" "A Layer" = "A" ∧
    instantiateTemplate "Comp1" "first component" (pyReplace " Layer" "" "A Layer")
      = "<b>Comp1</b><br>first component<br><i>A Layer</i><extra></extra>" :=
  ⟨by decide, by decide,
   C10_layer_suffix_stripped dAB layerA compA1 (by decide) (by decide),
   by decide, by decide⟩

end ChartScript
